import Mathlib

/-!
# VapourSynth-FFT3DFilter: argument handling of `Plugin.cpp`

A shallow embedding of `getPlanesArg`, `set_option_int64`, `set_option_float`
and `createFFT3DFilter` from `src/Plugin.cpp`, followed by the properties of
the construction-time validation and of the filter chain that is built.

Conventions of the embedding

* a `VSMap` of arguments is a record of optional values (`none` = key absent);
* `int64_t` values are `Int`; the only arithmetic that can leave the 64-bit
  range, `ow * 2` and `oh * 2`, is reduced with `wrap64`;
* `double` and `float` values are `FVal`: NaN, the infinities, or a finite
  sign/magnitude/binary-exponent triple; `static_cast<float>` is `toFloat`;
* a `std::runtime_error` thrown by `getPlanesArg` is `Except.error` carrying
  `what()`; inside `createFFT3DFilter` every `throw` goes to the `catch`
  block, `caught`;
* the calls made on the VapourSynth API (`createFilter`, `setError`) are
  collected in an `Outcome`; the filter classes are declared in
  `FFT3DFilter.h`, so an instance is recorded as the arguments it was
  constructed with.
-/

set_option linter.unusedVariables false

namespace FFT3DFilter

/-! ## `getPlanesArg` -/

/-- Helper `int64ToIntS` of `VSHelper.h`: saturating conversion of an `int64_t` to `int`. -/
def int64ToIntS (i : Int) : Int :=
  if i > 2147483647 then 2147483647
  else if i < -2147483648 then -2147483648
  else i

/-- The call `vsapi->propNumElements(in, "planes")`: the number of elements stored
under the key, `-1` when the key is absent. -/
def propNumElements (planes : Option (List Int)) : Int :=
  match planes with
  | none => -1
  | some l => (l.length : Int)

/-- The second loop of `getPlanesArg` (lines 34-44), run over the elements
of `planes` in index order with the current contents of `process`. -/
def getPlanesLoop : List Int → List Bool → Except String (List Bool)
  | [], process => Except.ok process
  | x :: rest, process =>
    let o := int64ToIntS x
    if o < 0 ∨ o ≥ 3 then
      Except.error "plane index out of range"
    else if process.getD o.toNat false then
      Except.error "plane specified twice"
    else
      getPlanesLoop rest (process.set o.toNat true)

/-- Function `getPlanesArg` (lines 28-45): `process` is the three-entry output array,
first filled with `m <= 0`, then updated by the loop over the `m` elements. -/
def getPlanesArg (planes : Option (List Int)) : Except String (List Bool) :=
  let m := propNumElements planes
  let process := List.replicate 3 (decide (m ≤ 0))
  getPlanesLoop (planes.getD []) process

/-! ## `int64_t` arithmetic -/

/-- Reduction of an integer to the `int64_t` range (two's complement). -/
def wrap64 (x : Int) : Int :=
  (x + 9223372036854775808) % 18446744073709551616 - 9223372036854775808

/-- The values an `int64_t` can hold. -/
def isInt64 (x : Int) : Prop :=
  -9223372036854775808 ≤ x ∧ x ≤ 9223372036854775807

instance (x : Int) : Decidable (isInt64 x) := by
  unfold isInt64; infer_instance

/-! ## `double` and `float` values -/

/-- A `double` or `float` value: NaN, an infinity, or the finite number
`(-1)^neg * m * 2^e`. -/
inductive FVal where
  | nan : FVal
  | inf (neg : Bool) : FVal
  | fin (neg : Bool) (m : Nat) (e : Int) : FVal
deriving DecidableEq

/-- Comparison `m1 * 2^e1 < m2 * 2^e2` of two magnitudes, both scaled to
the smaller exponent. -/
def magLt (m1 : Nat) (e1 : Int) (m2 : Nat) (e2 : Int) : Bool :=
  decide (m1 * 2 ^ (e1 - min e1 e2).toNat < m2 * 2 ^ (e2 - min e1 e2).toNat)

/-- The operator `<` on floating-point values (false when either operand is NaN). -/
def FVal.lt : FVal → FVal → Bool
  | FVal.nan, _ => false
  | _, FVal.nan => false
  | FVal.inf true, FVal.inf true => false
  | FVal.inf true, _ => true
  | FVal.inf false, _ => false
  | FVal.fin _ _ _, FVal.inf true => false
  | FVal.fin _ _ _, FVal.inf false => true
  | FVal.fin false m1 e1, FVal.fin false m2 e2 => magLt m1 e1 m2 e2
  | FVal.fin true m1 e1, FVal.fin true m2 e2 => magLt m2 e2 m1 e1
  | FVal.fin true m1 _, FVal.fin false m2 _ => decide (m1 ≠ 0 ∨ m2 ≠ 0)
  | FVal.fin false _ _, FVal.fin true _ _ => false

/-- The operator `>=` on floating-point values (false when either operand is NaN). -/
def FVal.ge : FVal → FVal → Bool
  | FVal.nan, _ => false
  | _, FVal.nan => false
  | a, b => !(FVal.lt a b)

/-- The operator `!=` on floating-point values (true when either operand is NaN). -/
def FVal.ne : FVal → FVal → Bool
  | FVal.nan, _ => true
  | _, FVal.nan => true
  | a, b => FVal.lt a b || FVal.lt b a

/-- Index of the leading one bit of `n`, by halving at most `fuel` times. -/
def ilog2Aux : Nat → Nat → Nat
  | 0, _ => 0
  | fuel + 1, n => if n < 2 then 0 else ilog2Aux fuel (n / 2) + 1

/-- Index of the leading one bit of `n` (`0` for `n = 0`). -/
def ilog2 (n : Nat) : Nat := ilog2Aux n n

/-- The quotient `m / 2^k` rounded to the nearest integer, ties to even. -/
def roundShift (m k : Nat) : Nat :=
  let q := m / 2 ^ k
  let r := m % 2 ^ k
  if 2 * r < 2 ^ k then q
  else if 2 ^ k < 2 * r then q + 1
  else if q % 2 = 0 then q else q + 1

/-- The conversion `static_cast<float>` of a `double`: conversion to IEEE-754 binary32
(24-bit significand, least exponent `2^-149`, overflow at `2^128`) in the
default rounding mode, round to nearest with ties to even. -/
def toFloat : FVal → FVal
  | FVal.nan => FVal.nan
  | FVal.inf s => FVal.inf s
  | FVal.fin s m e =>
    if m = 0 then FVal.fin s 0 0
    else
      let u := max (e + (ilog2 m : Int)) (-126) - 23
      let m' := roundShift m (u - e).toNat
      let e' := max u e
      if m' ≠ 0 ∧ e' + (ilog2 m' : Int) ≥ 128 then FVal.inf s else FVal.fin s m' e'

/-- Conversion of an `int` operand to `float` (usual arithmetic conversions). -/
def FVal.ofInt (i : Int) : FVal :=
  toFloat (FVal.fin (decide (i < 0)) i.natAbs 0)

/-! ## The argument map and the option readers -/

/-- The `in` map of `createFFT3DFilter`, one field per key of the registered
signature; `none` is an absent key. -/
structure Args where
  clip : Nat
  sigma : Option FVal
  beta : Option FVal
  planes : Option (List Int)
  bw : Option Int
  bh : Option Int
  bt : Option Int
  ow : Option Int
  oh : Option Int
  kratio : Option FVal
  sharpen : Option FVal
  scutoff : Option FVal
  svr : Option FVal
  smin : Option FVal
  smax : Option FVal
  measure : Option Int
  interlaced : Option Int
  wintype : Option Int
  pframe : Option Int
  px : Option Int
  py : Option Int
  pshow : Option Int
  pcutoff : Option FVal
  pfactor : Option FVal
  sigma2 : Option FVal
  sigma3 : Option FVal
  sigma4 : Option FVal
  degrid : Option FVal
  dehalo : Option FVal
  hr : Option FVal
  ht : Option FVal
  ncpu : Option Int

/-- Function `set_option_int64` (lines 47-60): the stored value, or `default_value`
when `propGetInt` reports an error. -/
def set_option_int64 (default_value : Int) (arg : Option Int) : Int :=
  match arg with
  | some v => v
  | none => default_value

/-- Function `set_option_float` (lines 62-75): the stored `double` narrowed to
`float`, or `default_value` when `propGetFloat` reports an error. -/
def set_option_float (default_value : FVal) (arg : Option FVal) : FVal :=
  match arg with
  | some v => toFloat v
  | none => default_value

/-- The local variables of `createFFT3DFilter` after lines 133-162. -/
structure Options where
  sigma1 : FVal
  beta : FVal
  bw : Int
  bh : Int
  bt : Int
  ow : Int
  oh : Int
  kratio : FVal
  sharpen : FVal
  scutoff : FVal
  svr : FVal
  smin : FVal
  smax : FVal
  measure : Int
  interlaced : Int
  wintype : Int
  pframe : Int
  px : Int
  py : Int
  pshow : Int
  pcutoff : FVal
  pfactor : FVal
  sigma2 : FVal
  sigma3 : FVal
  sigma4 : FVal
  degrid : FVal
  dehalo : FVal
  hr : FVal
  ht : FVal
  ncpu : Int

/-- Lines 133-162 of `createFFT3DFilter`: every option is read in source
order, later defaults using the values read before (`bw/3`, `bh/3`,
`sigma1`).  The literals `0.3f` and `0.1f` are written as the binary32
values they denote. -/
def readOptions (a : Args) : Options :=
  let sigma1 := set_option_float (toFloat (FVal.fin false 1 1)) a.sigma
  let beta := set_option_float (toFloat (FVal.fin false 1 0)) a.beta
  let bw := set_option_int64 32 a.bw
  let bh := set_option_int64 32 a.bh
  let bt := set_option_int64 3 a.bt
  let ow := set_option_int64 (Int.tdiv bw 3) a.ow
  let oh := set_option_int64 (Int.tdiv bh 3) a.oh
  let kratio := set_option_float (toFloat (FVal.fin false 1 1)) a.kratio
  let sharpen := set_option_float (FVal.ofInt 0) a.sharpen
  let scutoff := set_option_float (FVal.fin false 10066330 (-25)) a.scutoff
  let svr := set_option_float (toFloat (FVal.fin false 1 0)) a.svr
  let smin := set_option_float (toFloat (FVal.fin false 1 2)) a.smin
  let smax := set_option_float (toFloat (FVal.fin false 5 2)) a.smax
  let measure := set_option_int64 1 a.measure
  let interlaced := set_option_int64 0 a.interlaced
  let wintype := set_option_int64 0 a.wintype
  let pframe := set_option_int64 0 a.pframe
  let px := set_option_int64 0 a.px
  let py := set_option_int64 0 a.py
  let pshow := set_option_int64 0 a.pshow
  let pcutoff := set_option_float (FVal.fin false 13421773 (-27)) a.pcutoff
  let pfactor := set_option_float (FVal.ofInt 0) a.pfactor
  let sigma2 := set_option_float sigma1 a.sigma2
  let sigma3 := set_option_float sigma1 a.sigma3
  let sigma4 := set_option_float sigma1 a.sigma4
  let degrid := set_option_float (toFloat (FVal.fin false 1 0)) a.degrid
  let dehalo := set_option_float (FVal.ofInt 0) a.dehalo
  let hr := set_option_float (toFloat (FVal.fin false 1 1)) a.hr
  let ht := set_option_float (toFloat (FVal.fin false 25 1)) a.ht
  let ncpu := set_option_int64 1 a.ncpu
  { sigma1 := sigma1, beta := beta, bw := bw, bh := bh, bt := bt, ow := ow, oh := oh,
    kratio := kratio, sharpen := sharpen, scutoff := scutoff, svr := svr, smin := smin,
    smax := smax, measure := measure, interlaced := interlaced, wintype := wintype,
    pframe := pframe, px := px, py := py, pshow := pshow, pcutoff := pcutoff,
    pfactor := pfactor, sigma2 := sigma2, sigma3 := sigma3, sigma4 := sigma4,
    degrid := degrid, dehalo := dehalo, hr := hr, ht := ht, ncpu := ncpu }
/-! ## The filters that `createFFT3DFilter` registers -/

/-- A `VSNodeRef *`: the input clip, the output node of a filter registered
under a name, or the null pointer `propGetNode` returns on a missing key. -/
inductive NodeRef where
  | clip (handle : Nat) : NodeRef
  | filter (name : String) : NodeRef
  | null : NodeRef
deriving DecidableEq

/-- Arguments of `new FFT3DFilterTransform(...)`, as written at the call
(lines 183 and 211); `core` and `vsapi` are left out. -/
structure TransformArgs where
  pshow : Bool
  node : NodeRef
  plane : Int
  wintype : Int
  bw : Int
  bh : Int
  ow : Int
  oh : Int
  px : Int
  py : Int
  pcutoff : FVal
  degrid : FVal
  interlaced : Int
  measure : Int
deriving DecidableEq

/-- Arguments of `new FFT3DFilterPShow(...)` (line 198). -/
structure PShowArgs where
  node : NodeRef
  plane : Int
  bw : Int
  bh : Int
  ow : Int
  oh : Int
  interlaced : Int
deriving DecidableEq

/-- Arguments of `new FFT3DFilter(...)` (lines 227-231); `vi` is the video
info of the node named, `transform` the object the pointer refers to. -/
structure MainArgs where
  transform : TransformArgs
  vi : NodeRef
  sigma1 : FVal
  beta : FVal
  plane : Int
  bw : Int
  bh : Int
  bt : Int
  ow : Int
  oh : Int
  kratio : FVal
  sharpen : FVal
  scutoff : FVal
  svr : FVal
  smin : FVal
  smax : FVal
  pframe : Int
  px : Int
  py : Int
  pshow : Int
  pcutoff : FVal
  pfactor : FVal
  sigma2 : FVal
  sigma3 : FVal
  sigma4 : FVal
  degrid : FVal
  dehalo : FVal
  hr : FVal
  ht : FVal
  ncpu : Int
  node : NodeRef
deriving DecidableEq

/-- Arguments of `new FFT3DFilterInvTransform(...)` (line 245). -/
structure InvTransformArgs where
  node : NodeRef
  vi : NodeRef
  plane : Int
  wintype : Int
  bw : Int
  bh : Int
  ow : Int
  oh : Int
  interlaced : Int
  measure : Int
deriving DecidableEq

/-- The instance data handed to `createFilter`. -/
inductive FilterInstance where
  | transform (args : TransformArgs) : FilterInstance
  | pshowFilter (args : PShowArgs) : FilterInstance
  | mainFilter (args : MainArgs) : FilterInstance
  | invTransform (args : InvTransformArgs) : FilterInstance
deriving DecidableEq

/-- The `plane` argument an instance was constructed with. -/
def FilterInstance.plane : FilterInstance → Int
  | FilterInstance.transform args => args.plane
  | FilterInstance.pshowFilter args => args.plane
  | FilterInstance.mainFilter args => args.plane
  | FilterInstance.invTransform args => args.plane

/-- The map a `createFilter` call writes the new node to. -/
inductive MapId where
  | tmp : MapId
  | out : MapId
deriving DecidableEq

/-- One `vsapi->createFilter(in, map, name, Init, getFrame, Free,
fmParallelRequests, 0, instanceData, core)` call. -/
structure FilterCall where
  map : MapId
  name : String
  getFrame : String
  instanceData : FilterInstance
deriving DecidableEq

/-- What a run of `createFFT3DFilter` leaves behind: the `createFilter`
calls in order, the nodes stored under `"clip"` in `out`, and the message
passed to `setError(out, ...)`, if any. -/
structure Outcome where
  created : List FilterCall
  outClip : List NodeRef
  error : Option String
deriving DecidableEq

/-- The `catch` block (lines 260-262), reached after the `createFilter`
calls in `created` and the `out` contents `outClip`. -/
def caught (created : List FilterCall) (outClip : List NodeRef) (what : String) : Outcome :=
  { created := created, outClip := outClip, error := some ("FFT3DFilter: " ++ what) }

/-- The call `vsapi->propGetNode(map, "clip", 0, nullptr)` on the nodes stored under
`"clip"`. -/
def propGetNode (clipKey : List NodeRef) : NodeRef :=
  clipKey.headD NodeRef.null

/-- The number of `true` entries, as counted by lines 126-129. -/
def countProcess (process : List Bool) : Nat :=
  (process.filter id).length

/-- The spectrum-visualizer branch (lines 183-208). -/
def buildPShow (o : Options) (node : NodeRef) (plane : Int) : Outcome :=
  let tmp : List NodeRef := []
  let pshowtransform : TransformArgs :=
    { pshow := true, node := node, plane := plane, wintype := o.wintype, bw := o.bw,
      bh := o.bh, ow := o.ow, oh := o.oh, px := o.px, py := o.py, pcutoff := o.pcutoff,
      degrid := o.degrid, interlaced := o.interlaced, measure := o.measure }
  let call1 : FilterCall :=
    { map := MapId.tmp, name := "FFT3DFilterPShowHelper",
      getFrame := "FFT3DFilterTransform::GetPShowFrame",
      instanceData := FilterInstance.transform pshowtransform }
  let tmp := tmp ++ [NodeRef.filter call1.name]
  let pshownode := propGetNode tmp
  let pshowfilter : PShowArgs :=
    { node := pshownode, plane := plane, bw := o.bw, bh := o.bh, ow := o.ow, oh := o.oh,
      interlaced := o.interlaced }
  let call2 : FilterCall :=
    { map := MapId.out, name := "FFT3DFilterPShow",
      getFrame := "FFT3DFilterPShow::GetFrame",
      instanceData := FilterInstance.pshowFilter pshowfilter }
  { created := [call1, call2], outClip := [NodeRef.filter call2.name], error := none }

/-- The normal branch (lines 211-255). -/
def buildPipeline (o : Options) (node : NodeRef) (vi : NodeRef) (plane : Int) : Outcome :=
  let tmp : List NodeRef := []
  let transform : TransformArgs :=
    { pshow := false, node := node, plane := plane, wintype := o.wintype, bw := o.bw,
      bh := o.bh, ow := o.ow, oh := o.oh, px := o.px, py := o.py, pcutoff := o.pcutoff,
      degrid := o.degrid, interlaced := o.interlaced, measure := o.measure }
  let call1 : FilterCall :=
    { map := MapId.tmp, name := "FFT3DFilterTransform",
      getFrame := "FFT3DFilterTransform::GetFrame",
      instanceData := FilterInstance.transform transform }
  let tmp := tmp ++ [NodeRef.filter call1.name]
  let transformednode := propGetNode tmp
  let tmp : List NodeRef := []
  let mainFilter : MainArgs :=
    { transform := transform, vi := vi, sigma1 := o.sigma1, beta := o.beta, plane := plane,
      bw := o.bw, bh := o.bh, bt := o.bt, ow := o.ow, oh := o.oh, kratio := o.kratio,
      sharpen := o.sharpen, scutoff := o.scutoff, svr := o.svr, smin := o.smin,
      smax := o.smax, pframe := o.pframe, px := o.px, py := o.py, pshow := o.pshow,
      pcutoff := o.pcutoff, pfactor := o.pfactor, sigma2 := o.sigma2, sigma3 := o.sigma3,
      sigma4 := o.sigma4, degrid := o.degrid, dehalo := o.dehalo, hr := o.hr, ht := o.ht,
      ncpu := o.ncpu, node := transformednode }
  let call2 : FilterCall :=
    { map := MapId.tmp, name := "FFT3DFilterMain",
      getFrame := "FFT3DFilter::GetFrame",
      instanceData := FilterInstance.mainFilter mainFilter }
  let tmp := tmp ++ [NodeRef.filter call2.name]
  let mainnode := propGetNode tmp
  let invtransform : InvTransformArgs :=
    { node := mainnode, vi := vi, plane := plane, wintype := o.wintype, bw := o.bw,
      bh := o.bh, ow := o.ow, oh := o.oh, interlaced := o.interlaced,
      measure := o.measure }
  let call3 : FilterCall :=
    { map := MapId.out, name := "FFT3DFilterInverseTransform",
      getFrame := "FFT3DFilterInvTransform::GetFrame",
      instanceData := FilterInstance.invTransform invtransform }
  { created := [call1, call2, call3], outClip := [NodeRef.filter call3.name], error := none }

/-- Function `createFFT3DFilter` (lines 77-263).  `istat` is the value returned by
`fftwf_init_threads()`.  Every `throw` of the `try` block ends in `caught`;
the constructors of the filter classes are declared in `FFT3DFilter.h` and
are taken to store their arguments. -/
def createFFT3DFilter (istat : Int) (a : Args) : Outcome :=
  if istat = 0 then caught [] [] "fftwf_init_threads() failed!"
  else
    match getPlanesArg a.planes with
    | Except.error what => caught [] [] what
    | Except.ok process =>
      let num_process := countProcess process
      let o := readOptions a
      if o.bt < -1 ∨ o.bt > 5 then
        caught [] [] "bt must be -1(Sharpen), 0(Kalman), 1,2,3,4,5(Wiener)"
      else if wrap64 (o.ow * 2) > o.bw then
        caught [] [] "Must not be 2*ow > bw"
      else if wrap64 (o.oh * 2) > o.bh then
        caught [] [] "Must not be 2*oh > bh"
      else if FVal.lt o.beta (FVal.ofInt 1) then
        caught [] [] "beta must be not less 1.0"
      else
        let node := NodeRef.clip a.clip
        let vi := node
        let plane : Int := 0
        let pshowmode := decide (o.pshow ≠ 0) && FVal.ne o.pfactor (FVal.ofInt 0)
        if pshowmode then buildPShow o node plane
        else buildPipeline o node vi plane

/-! ## Auxiliary definitions used in the statements -/

/-- An argument map holding only the mandatory clip. -/
def clipOnly (clip : Nat) : Args :=
  { clip := clip, sigma := none, beta := none, planes := none, bw := none, bh := none,
    bt := none, ow := none, oh := none, kratio := none, sharpen := none, scutoff := none,
    svr := none, smin := none, smax := none, measure := none, interlaced := none,
    wintype := none, pframe := none, px := none, py := none, pshow := none,
    pcutoff := none, pfactor := none, sigma2 := none, sigma3 := none, sigma4 := none,
    degrid := none, dehalo := none, hr := none, ht := none, ncpu := none }

/-- The rational number `m * 2^e`. -/
def magQ (m : Nat) (e : Int) : ℚ := (m : ℚ) * (2 : ℚ) ^ e

/-- The `double` `1 - 2^-25`, halfway between `1.0f` and the largest
`float` below it. -/
def belowOneMidpoint : FVal := FVal.fin false 33554431 (-25)

/-- The `double` `2^-150`, half of the least positive `float` `2^-149`. -/
def halfMinSubnormal : FVal := FVal.fin false 1 (-150)

/-- The absolute value of a floating-point value (`fabs`). -/
def FVal.abs : FVal → FVal
  | FVal.nan => FVal.nan
  | FVal.inf _ => FVal.inf false
  | FVal.fin _ m e => FVal.fin false m e

/-- The supplied arguments select the visualizer: `pshow` is present and
non-zero, and `pfactor` is present and is NaN or exceeds `2^-150` in
absolute value.  Stated on the argument map only. -/
def suppliedPShow (a : Args) : Prop :=
  (∃ p, a.pshow = some p ∧ p ≠ 0) ∧
  (∃ d, a.pfactor = some d ∧
    (d = FVal.nan ∨ FVal.lt halfMinSubnormal (FVal.abs d) = true))

/-- The `planes` check fails: `getPlanesArg` throws. -/
abbrev planesFail (a : Args) : Prop := (getPlanesArg a.planes).toOption = none

/-- The condition of line 164. -/
abbrev btFails (a : Args) : Prop := (readOptions a).bt < -1 ∨ (readOptions a).bt > 5

/-- The condition of line 166. -/
abbrev owFails (a : Args) : Prop := wrap64 ((readOptions a).ow * 2) > (readOptions a).bw

/-- The condition of line 168. -/
abbrev ohFails (a : Args) : Prop := wrap64 ((readOptions a).oh * 2) > (readOptions a).bh

/-- The condition of line 170. -/
abbrev betaFails (a : Args) : Prop := FVal.lt (readOptions a).beta (FVal.ofInt 1) = true

/-- No setup check fails. -/
abbrev Valid (istat : Int) (a : Args) : Prop :=
  istat ≠ 0 ∧ ¬ planesFail a ∧ ¬ btFails a ∧ ¬ owFails a ∧ ¬ ohFails a ∧ ¬ betaFails a

/-- The value of `pshowmode` (line 180). -/
abbrev pshowmode (a : Args) : Prop :=
  (readOptions a).pshow ≠ 0 ∧ FVal.ne (readOptions a).pfactor (FVal.ofInt 0) = true

/-- The node an instance was constructed on. -/
def FilterInstance.node : FilterInstance → NodeRef
  | FilterInstance.transform args => args.node
  | FilterInstance.pshowFilter args => args.node
  | FilterInstance.mainFilter args => args.node
  | FilterInstance.invTransform args => args.node

/-- The registered filters in order, each with the node it reads from. -/
def Outcome.chain (r : Outcome) : List (String × NodeRef) :=
  r.created.map fun c => (c.name, c.instanceData.node)

/-- The contents of `process` after the planes in `seen` have been marked,
starting from an all-false array. -/
def maskOf (seen : List Int) : List Bool :=
  [decide ((0 : Int) ∈ seen), decide ((1 : Int) ∈ seen), decide ((2 : Int) ∈ seen)]

/-! ## Lemmas on `getPlanesArg` -/

theorem int64ToIntS_inRange (x : Int) :
    (int64ToIntS x < 0 ∨ int64ToIntS x ≥ 3) ↔ (x < 0 ∨ 2 < x) := by
  unfold int64ToIntS
  split_ifs <;> omega

theorem int64ToIntS_of_inRange (x : Int) (h : ¬ (x < 0 ∨ 2 < x)) : int64ToIntS x = x := by
  unfold int64ToIntS
  split_ifs <;> omega

theorem maskOf_getD (seen : List Int) (x : Int) (h : ¬ (x < 0 ∨ 2 < x)) :
    (maskOf seen).getD x.toNat false = decide (x ∈ seen) := by
  have hx : x = 0 ∨ x = 1 ∨ x = 2 := by omega
  rcases hx with rfl | rfl | rfl <;> simp [maskOf]

theorem maskOf_set (seen : List Int) (x : Int) (h : ¬ (x < 0 ∨ 2 < x)) :
    (maskOf seen).set x.toNat true = maskOf (x :: seen) := by
  have hx : x = 0 ∨ x = 1 ∨ x = 2 := by omega
  rcases hx with rfl | rfl | rfl <;> simp [maskOf]

/-- One iteration of the loop, on an array that marks exactly `seen`. -/
theorem getPlanesLoop_cons (x : Int) (rest seen : List Int) :
    getPlanesLoop (x :: rest) (maskOf seen) =
      if x < 0 ∨ 2 < x then Except.error "plane index out of range"
      else if x ∈ seen then Except.error "plane specified twice"
      else getPlanesLoop rest (maskOf (x :: seen)) := by
  by_cases hr : x < 0 ∨ 2 < x
  · have h1 : int64ToIntS x < 0 ∨ int64ToIntS x ≥ 3 := (int64ToIntS_inRange x).mpr hr
    simp only [getPlanesLoop, if_pos h1, if_pos hr]
  · have h1 : ¬ (x < 0 ∨ x ≥ 3) := fun h => hr (by omega)
    simp only [getPlanesLoop, int64ToIntS_of_inRange x hr, if_neg h1, if_neg hr,
      maskOf_getD seen x hr, maskOf_set seen x hr, decide_eq_true_eq]

/-- The loop succeeds exactly on in-range, pairwise distinct, not yet marked
indices, and then marks them all. -/
theorem getPlanesLoop_ok_iff (l seen : List Int) (r : List Bool) :
    getPlanesLoop l (maskOf seen) = Except.ok r ↔
      (∀ y ∈ l, ¬ (y < 0 ∨ 2 < y) ∧ y ∉ seen) ∧ l.Nodup ∧ r = maskOf (l ++ seen) := by
  induction l generalizing seen with
  | nil =>
    simp only [getPlanesLoop, Except.ok.injEq, List.not_mem_nil, false_implies, implies_true,
      List.nodup_nil, List.nil_append, true_and]
    exact eq_comm
  | cons x rest ih =>
    rw [getPlanesLoop_cons]
    by_cases hr : x < 0 ∨ 2 < x
    · simp only [if_pos hr, reduceCtorEq, false_iff]
      intro h
      exact (h.1 x (List.mem_cons_self x rest)).1 hr
    · by_cases hs : x ∈ seen
      · simp only [if_neg hr, if_pos hs, reduceCtorEq, false_iff]
        intro h
        exact (h.1 x (List.mem_cons_self x rest)).2 hs
      · simp only [if_neg hr, if_neg hs]
        rw [ih (x :: seen)]
        have hmask : maskOf (rest ++ x :: seen) = maskOf (x :: rest ++ seen) := by
          simp only [maskOf, List.mem_append, List.mem_cons, List.cons_append]
          congr 1
          · simp only [decide_eq_decide]; tauto
          · congr 1
            · simp only [decide_eq_decide]; tauto
            · congr 1
              simp only [decide_eq_decide]; tauto
        rw [hmask]
        constructor
        · rintro ⟨h1, h2, h3⟩
          refine ⟨?_, ?_, h3⟩
          · intro y hy
            rcases List.mem_cons.mp hy with rfl | hy
            · exact ⟨hr, hs⟩
            · exact ⟨(h1 y hy).1, fun h => (h1 y hy).2 (List.mem_cons_of_mem _ h)⟩
          · refine List.nodup_cons.mpr ⟨?_, h2⟩
            intro hx
            exact (h1 x hx).2 (List.mem_cons_self x seen)
        · rintro ⟨h1, h2, h3⟩
          have hnd := List.nodup_cons.mp h2
          refine ⟨?_, hnd.2, h3⟩
          intro y hy
          refine ⟨(h1 y (List.mem_cons_of_mem _ hy)).1, ?_⟩
          intro h
          rcases List.mem_cons.mp h with rfl | h
          · exact hnd.1 hy
          · exact (h1 y (List.mem_cons_of_mem _ hy)).2 h

/-- The loop throws `e` exactly when the list splits as `p ++ x :: s` with
`p` accepted and `x` the element that triggers `e`. -/
theorem getPlanesLoop_error_iff (l seen : List Int) (e : String) :
    getPlanesLoop l (maskOf seen) = Except.error e ↔
      ∃ p x s, l = p ++ x :: s ∧ (∀ y ∈ p, ¬ (y < 0 ∨ 2 < y) ∧ y ∉ seen) ∧ p.Nodup ∧
        (((x < 0 ∨ 2 < x) ∧ e = "plane index out of range") ∨
          (¬ (x < 0 ∨ 2 < x) ∧ (x ∈ seen ∨ x ∈ p) ∧ e = "plane specified twice")) := by
  induction l generalizing seen with
  | nil =>
    simp only [getPlanesLoop, reduceCtorEq, false_iff]
    rintro ⟨p, x, s, h, -⟩
    exact absurd h (by simp)
  | cons a rest ih =>
    rw [getPlanesLoop_cons]
    constructor
    · intro h
      by_cases hr : a < 0 ∨ 2 < a
      · rw [if_pos hr] at h
        refine ⟨[], a, rest, rfl, by simp, List.nodup_nil, Or.inl ⟨hr, ?_⟩⟩
        exact (Except.error.inj h).symm
      · by_cases hs : a ∈ seen
        · rw [if_neg hr, if_pos hs] at h
          refine ⟨[], a, rest, rfl, by simp, List.nodup_nil, Or.inr ⟨hr, Or.inl hs, ?_⟩⟩
          exact (Except.error.inj h).symm
        · rw [if_neg hr, if_neg hs] at h
          obtain ⟨p, x, s, hl, hp, hnd, hx⟩ := (ih (a :: seen)).mp h
          refine ⟨a :: p, x, s, by rw [hl]; rfl, ?_, ?_, ?_⟩
          · intro y hy
            rcases List.mem_cons.mp hy with rfl | hy
            · exact ⟨hr, hs⟩
            · exact ⟨(hp y hy).1, fun h => (hp y hy).2 (List.mem_cons_of_mem _ h)⟩
          · refine List.nodup_cons.mpr ⟨?_, hnd⟩
            intro ha
            exact (hp a ha).2 (List.mem_cons_self a seen)
          · rcases hx with hx | ⟨hx1, hx2, hx3⟩
            · exact Or.inl hx
            · refine Or.inr ⟨hx1, ?_, hx3⟩
              rcases hx2 with hx2 | hx2
              · rcases List.mem_cons.mp hx2 with rfl | hx2
                · exact Or.inr (List.mem_cons_self _ _)
                · exact Or.inl hx2
              · exact Or.inr (List.mem_cons_of_mem _ hx2)
    · rintro ⟨p, x, s, hl, hp, hnd, hx⟩
      cases p with
      | nil =>
        simp only [List.nil_append, List.cons.injEq] at hl
        obtain ⟨rfl, rfl⟩ := hl
        rcases hx with ⟨hx1, hx2⟩ | ⟨hx1, hx2, hx3⟩
        · rw [if_pos hx1, hx2]
        · have hs : a ∈ seen := by
            rcases hx2 with h | h
            · exact h
            · exact absurd h (List.not_mem_nil a)
          rw [if_neg hx1, if_pos hs, hx3]
      | cons b p =>
        simp only [List.cons_append, List.cons.injEq] at hl
        obtain ⟨rfl, rfl⟩ := hl
        have hb := hp a (List.mem_cons_self a p)
        rw [if_neg hb.1, if_neg hb.2]
        have hnd2 := List.nodup_cons.mp hnd
        refine (ih (a :: seen)).mpr ⟨p, x, s, rfl, ?_, hnd2.2, ?_⟩
        · intro y hy
          refine ⟨(hp y (List.mem_cons_of_mem _ hy)).1, ?_⟩
          intro h
          rcases List.mem_cons.mp h with rfl | h
          · exact hnd2.1 hy
          · exact (hp y (List.mem_cons_of_mem _ hy)).2 h
        · rcases hx with hx | ⟨hx1, hx2, hx3⟩
          · exact Or.inl hx
          · refine Or.inr ⟨hx1, ?_, hx3⟩
            rcases hx2 with hx2 | hx2
            · exact Or.inl (List.mem_cons_of_mem _ hx2)
            · rcases List.mem_cons.mp hx2 with rfl | hx2
              · exact Or.inl (List.mem_cons_self _ _)
              · exact Or.inr hx2

/-- For a non-empty list, `getPlanesArg` is the loop started on an all-false array. -/
theorem getPlanesArg_cons (x : Int) (rest : List Int) :
    getPlanesArg (some (x :: rest)) = getPlanesLoop (x :: rest) (maskOf []) := by
  have h : ¬ ((((x :: rest).length : Nat) : Int) ≤ 0) := by
    simp only [List.length_cons]; omega
  simp only [getPlanesArg, propNumElements, Option.getD_some, decide_eq_false h]
  rfl

theorem getPlanesArg_nil : getPlanesArg (some []) = Except.ok [true, true, true] := by
  rfl

theorem getPlanesArg_none : getPlanesArg none = Except.ok [true, true, true] := by
  rfl



/-! ## Lemmas on the floating-point model -/

theorem ilog2Aux_spec (fuel n : Nat) (hle : n ≤ fuel) (hpos : 0 < n) :
    2 ^ ilog2Aux fuel n ≤ n ∧ n < 2 ^ (ilog2Aux fuel n + 1) := by
  induction fuel generalizing n with
  | zero => omega
  | succ fuel ih =>
    by_cases h2 : n < 2
    · simp only [ilog2Aux, if_pos h2]
      omega
    · simp only [ilog2Aux, if_neg h2]
      have h := ih (n / 2) (by omega) (by omega)
      have e1 : 2 ^ (ilog2Aux fuel (n / 2) + 1) = 2 * 2 ^ ilog2Aux fuel (n / 2) := by
        rw [pow_succ]; ring
      have e2 : 2 ^ (ilog2Aux fuel (n / 2) + 1 + 1) = 4 * 2 ^ ilog2Aux fuel (n / 2) := by
        rw [pow_succ, pow_succ]; ring
      rw [e2, e1]
      rw [e1] at h
      omega

theorem ilog2_le (m : Nat) (h : m ≠ 0) : 2 ^ ilog2 m ≤ m :=
  (ilog2Aux_spec m m (le_refl m) (Nat.pos_of_ne_zero h)).1

theorem lt_ilog2 (m : Nat) (h : m ≠ 0) : m < 2 ^ (ilog2 m + 1) :=
  (ilog2Aux_spec m m (le_refl m) (Nat.pos_of_ne_zero h)).2

theorem roundShift_zero (m : Nat) : roundShift m 0 = m := by
  simp [roundShift, Nat.mod_one]

theorem roundShift_ge (m k : Nat) : m / 2 ^ k ≤ roundShift m k := by
  unfold roundShift
  simp only
  split_ifs <;> omega

/-- Rounding stays below `N` when `m` is more than half a unit below `N * 2^k`. -/
theorem roundShift_lt (m k N : Nat) (h : 2 * m + 2 ^ k < 2 * (N * 2 ^ k)) :
    roundShift m k < N := by
  have hP : 0 < 2 ^ k := Nat.two_pow_pos k
  have hdm := Nat.div_add_mod m (2 ^ k)
  have hq : m / 2 ^ k < N := by
    by_contra hc
    have h1 : N * 2 ^ k ≤ (m / 2 ^ k) * 2 ^ k := Nat.mul_le_mul_right _ (by omega)
    have h2 : (m / 2 ^ k) * 2 ^ k = 2 ^ k * (m / 2 ^ k) := Nat.mul_comm _ _
    omega
  have hq1 : 2 ^ k ≤ 2 * (m % 2 ^ k) → m / 2 ^ k + 1 < N := by
    intro hr
    by_contra hc
    have h1 : N * 2 ^ k ≤ (m / 2 ^ k + 1) * 2 ^ k := Nat.mul_le_mul_right _ (by omega)
    have h2 : (m / 2 ^ k + 1) * 2 ^ k = 2 ^ k * (m / 2 ^ k) + 2 ^ k := by ring
    omega
  unfold roundShift
  simp only
  split_ifs with c1 c2 c3
  · exact hq
  · exact hq1 (by omega)
  · exact hq
  · exact hq1 (by omega)

theorem magQ_pos_pow (e : Int) : (0 : ℚ) < (2 : ℚ) ^ e := zpow_pos (by norm_num) e

/-- The integer comparison `magLt` is comparison of the rationals denoted. -/
theorem magLt_iff (m1 : Nat) (e1 : Int) (m2 : Nat) (e2 : Int) :
    magLt m1 e1 m2 e2 = true ↔ magQ m1 e1 < magQ m2 e2 := by
  have key : ∀ (m : Nat) (e c : Int), c ≤ e →
      (((m * 2 ^ (e - c).toNat : Nat) : ℚ)) = magQ m e * (2 : ℚ) ^ (-c) := by
    intro m e c hc
    have h1 : (((e - c).toNat : Nat) : Int) = e - c := Int.toNat_of_nonneg (by omega)
    have h2 : ((2 : ℚ) ^ (e - c).toNat) = (2 : ℚ) ^ (e - c) := by
      rw [← zpow_natCast, h1]
    unfold magQ
    push_cast
    rw [h2, mul_assoc, ← zpow_add₀ (by norm_num : (2 : ℚ) ≠ 0)]
    congr 2
  unfold magLt
  rw [decide_eq_true_eq]
  have hpos := magQ_pos_pow (-(min e1 e2))
  rw [← Nat.cast_lt (α := ℚ), key m1 e1 _ (min_le_left e1 e2), key m2 e2 _ (min_le_right e1 e2)]
  exact mul_lt_mul_right hpos

theorem zpow_le_magQ (m : Nat) (e : Int) (h : m ≠ 0) :
    (2 : ℚ) ^ (e + (ilog2 m : Int)) ≤ magQ m e := by
  have h1 : ((2 ^ ilog2 m : Nat) : ℚ) ≤ (m : ℚ) := Nat.cast_le.mpr (ilog2_le m h)
  unfold magQ
  rw [add_comm, zpow_add₀ (by norm_num : (2 : ℚ) ≠ 0), zpow_natCast]
  push_cast at h1
  exact mul_le_mul_of_nonneg_right h1 (le_of_lt (magQ_pos_pow e))

theorem magQ_lt_zpow (m : Nat) (e : Int) (h : m ≠ 0) :
    magQ m e < (2 : ℚ) ^ (e + (ilog2 m : Int) + 1) := by
  have h1 : (m : ℚ) < ((2 ^ (ilog2 m + 1) : Nat) : ℚ) := Nat.cast_lt.mpr (lt_ilog2 m h)
  have h2 : e + (ilog2 m : Int) + 1 = ((ilog2 m + 1 : Nat) : Int) + e := by push_cast; omega
  unfold magQ
  rw [h2, zpow_add₀ (by norm_num : (2 : ℚ) ≠ 0), zpow_natCast]
  push_cast at h1 ⊢
  exact mul_lt_mul_of_pos_right h1 (magQ_pos_pow e)

theorem magQ_lt_one_exp (m : Nat) (e : Int) (hm : m ≠ 0) (h : magQ m e < 1) :
    e + (ilog2 m : Int) < 0 := by
  have h1 := lt_of_le_of_lt (zpow_le_magQ m e hm) h
  rw [← zpow_zero (2 : ℚ)] at h1
  exact (zpow_lt_zpow_iff_right₀ (by norm_num : (1 : ℚ) < 2)).mp h1

theorem magQ_ge_one_exp (m : Nat) (e : Int) (hm : m ≠ 0) (h : 1 ≤ magQ m e) :
    0 ≤ e + (ilog2 m : Int) := by
  have h1 := lt_of_le_of_lt h (magQ_lt_zpow m e hm)
  rw [← zpow_zero (2 : ℚ)] at h1
  have := (zpow_lt_zpow_iff_right₀ (by norm_num : (1 : ℚ) < 2)).mp h1
  omega

/-- Narrowing a magnitude of at least one gives a magnitude of at least one. -/
theorem round_ge_one (m : Nat) (e : Int) (hm : m ≠ 0) (h : 1 ≤ magQ m e) :
    1 ≤ magQ (roundShift m (max (e + (ilog2 m : Int)) (-126) - 23 - e).toNat)
      (max (max (e + (ilog2 m : Int)) (-126) - 23) e) := by
  have hE := magQ_ge_one_exp m e hm h
  have hmax : max (e + (ilog2 m : Int)) (-126) = e + (ilog2 m : Int) := max_eq_left (by omega)
  rw [hmax]
  by_cases hu : e + (ilog2 m : Int) - 23 ≤ e
  · have hk : (e + (ilog2 m : Int) - 23 - e).toNat = 0 := by omega
    rw [hk, roundShift_zero, max_eq_right hu]
    exact h
  · have hL : 24 ≤ ilog2 m := by omega
    have hk : (e + (ilog2 m : Int) - 23 - e).toNat = ilog2 m - 23 := by omega
    rw [hk, max_eq_left (by omega)]
    have hdiv : 2 ^ 23 ≤ m / 2 ^ (ilog2 m - 23) := by
      rw [Nat.le_div_iff_mul_le (Nat.two_pow_pos _), ← pow_add]
      have : 23 + (ilog2 m - 23) = ilog2 m := by omega
      rw [this]
      exact ilog2_le m hm
    have hr := le_trans hdiv (roundShift_ge m (ilog2 m - 23))
    have hrq : ((2 : ℚ) ^ (23 : Nat)) ≤ (roundShift m (ilog2 m - 23) : ℚ) := by
      exact_mod_cast hr
    have hpos := magQ_pos_pow (e + (ilog2 m : Int) - 23)
    have h23 : ((2 : ℚ) ^ (23 : Nat)) * (2 : ℚ) ^ (e + (ilog2 m : Int) - 23)
        = (2 : ℚ) ^ (e + (ilog2 m : Int)) := by
      rw [← zpow_natCast, ← zpow_add₀ (by norm_num : (2 : ℚ) ≠ 0)]
      congr 1
      push_cast
      omega
    have h1 : (1 : ℚ) ≤ (2 : ℚ) ^ (e + (ilog2 m : Int)) :=
      one_le_zpow₀ (by norm_num) hE
    unfold magQ
    calc (1 : ℚ) ≤ (2 : ℚ) ^ (e + (ilog2 m : Int)) := h1
      _ = ((2 : ℚ) ^ (23 : Nat)) * (2 : ℚ) ^ (e + (ilog2 m : Int) - 23) := h23.symm
      _ ≤ (roundShift m (ilog2 m - 23) : ℚ) * (2 : ℚ) ^ (e + (ilog2 m : Int) - 23) :=
        mul_le_mul_of_nonneg_right hrq (le_of_lt hpos)

theorem magQ_threshold_lt_one : magQ 33554431 (-25) < 1 := by
  unfold magQ
  norm_num

/-- Narrowing a magnitude below `1 - 2^-25` gives a magnitude below one. -/
theorem round_lt_one (m : Nat) (e : Int) (hm : m ≠ 0)
    (h : magLt m e 33554431 (-25) = true) :
    magQ (roundShift m (max (e + (ilog2 m : Int)) (-126) - 23 - e).toNat)
      (max (max (e + (ilog2 m : Int)) (-126) - 23) e) < 1 := by
  have hq : magQ m e < 1 := lt_trans ((magLt_iff _ _ _ _).mp h) magQ_threshold_lt_one
  have hE := magQ_lt_one_exp m e hm hq
  by_cases hu : max (e + (ilog2 m : Int)) (-126) - 23 ≤ e
  · have hk : (max (e + (ilog2 m : Int)) (-126) - 23 - e).toNat = 0 := by omega
    rw [hk, roundShift_zero, max_eq_right hu]
    exact hq
  · generalize hudef : max (e + (ilog2 m : Int)) (-126) - 23 = u at hu ⊢
    have hu24 : u ≤ -24 := by omega
    rw [max_eq_left (by omega : e ≤ u)]
    obtain ⟨b, hb⟩ : ∃ b : Nat, (b : Int) = -25 - e := ⟨(-25 - e).toNat, by omega⟩
    obtain ⟨k, hk⟩ : ∃ k : Nat, (k : Int) = u - e := ⟨(u - e).toNat, by omega⟩
    obtain ⟨n, hn⟩ : ∃ n : Nat, (n : Int) = -u := ⟨(-u).toNat, by omega⟩
    have hk' : (u - e).toNat = k := by omega
    rw [hk']
    have hm' : m < 33554431 * 2 ^ b := by
      have h0 := h
      unfold magLt at h0
      rw [decide_eq_true_eq] at h0
      have hmin : min e (-25) = e := min_eq_left (by omega)
      have z1 : (e - min e (-25)).toNat = 0 := by rw [hmin]; omega
      have z2 : (-25 - min e (-25)).toNat = b := by rw [hmin]; omega
      rw [z1, z2] at h0
      simpa using h0
    have hnk : n + k = b + 25 := by omega
    have hpow : 2 ^ n * 2 ^ k = 33554432 * 2 ^ b := by
      rw [← pow_add, hnk, pow_add]
      ring
    have hkb : 2 ^ k ≤ 2 * 2 ^ b := by
      have : 2 ^ k ≤ 2 ^ (b + 1) := Nat.pow_le_pow_right (by norm_num) (by omega)
      rw [pow_succ] at this
      omega
    have hlt : roundShift m k < 2 ^ n := by
      apply roundShift_lt
      rw [hpow]
      omega
    have hltq : (roundShift m k : ℚ) < ((2 : ℚ) ^ (n : Nat)) := by
      exact_mod_cast hlt
    have hpos := magQ_pos_pow u
    have hone : ((2 : ℚ) ^ (n : Nat)) * (2 : ℚ) ^ u = 1 := by
      rw [← zpow_natCast, ← zpow_add₀ (by norm_num : (2 : ℚ) ≠ 0), hn]
      simp
    unfold magQ
    calc (roundShift m k : ℚ) * (2 : ℚ) ^ u < ((2 : ℚ) ^ (n : Nat)) * (2 : ℚ) ^ u :=
        mul_lt_mul_of_pos_right hltq hpos
      _ = 1 := hone

theorem ofInt_one : FVal.ofInt 1 = FVal.fin false 1 0 := by decide

theorem magQ_one : magQ 1 0 = 1 := by
  unfold magQ
  norm_num

/-- A supplied value of at least one is not below one after narrowing. -/
theorem toFloat_ge_one (d : FVal) (h : FVal.ge d (FVal.ofInt 1) = true) :
    FVal.lt (toFloat d) (FVal.ofInt 1) = false := by
  rw [ofInt_one] at h ⊢
  cases d with
  | nan => rfl
  | inf s => cases s <;> simp_all [FVal.ge, FVal.lt, toFloat]
  | fin s m e =>
    cases s with
    | true => simp [FVal.ge, FVal.lt] at h
    | false =>
      have h1 : magLt m e 1 0 = false := by simpa [FVal.ge, FVal.lt] using h
      have hq : 1 ≤ magQ m e := by
        have := (magLt_iff m e 1 0).not.mp (by simp [h1])
        rw [magQ_one] at this
        exact not_lt.mp this
      have hm : m ≠ 0 := by
        rintro rfl
        simp [magQ] at hq
        linarith
      have hr := round_ge_one m e hm hq
      simp only [toFloat, if_neg hm]
      split_ifs
      · rfl
      · simp only [FVal.lt]
        apply Bool.eq_false_iff.mpr
        intro hc
        have := (magLt_iff _ _ _ _).mp hc
        rw [magQ_one] at this
        exact absurd hr (not_le.mpr this)

/-- A supplied value below `1 - 2^-25` is below one after narrowing. -/
theorem toFloat_lt_one (d : FVal) (h : FVal.lt d (FVal.fin false 33554431 (-25)) = true) :
    FVal.lt (toFloat d) (FVal.ofInt 1) = true := by
  rw [ofInt_one]
  cases d with
  | nan => simp [FVal.lt] at h
  | inf s => cases s <;> simp_all [FVal.lt, toFloat]
  | fin s m e =>
    by_cases hm : m = 0
    · subst hm
      cases s <;> simp [toFloat, FVal.lt, magLt]
    · cases s with
      | true =>
        simp only [toFloat, if_neg hm]
        split_ifs <;> simp [FVal.lt]
      | false =>
        have h1 : magLt m e 33554431 (-25) = true := by simpa [FVal.lt] using h
        have hr := round_lt_one m e hm h1
        simp only [toFloat, if_neg hm]
        split_ifs with hov
        · exfalso
          have := magQ_lt_one_exp _ _ hov.1 hr
          omega
        · simp only [FVal.lt]
          rw [magLt_iff, magQ_one]
          exact hr

/-- Rounding reaches an even `N` when `m` is at most half a unit below `N * 2^k`. -/
theorem roundShift_ge_of (m k N : Nat) (hN : N % 2 = 0)
    (h : 2 * (N * 2 ^ k) ≤ 2 * m + 2 ^ k) : N ≤ roundShift m k := by
  have hP : 0 < 2 ^ k := Nat.two_pow_pos k
  have hdm := Nat.div_add_mod m (2 ^ k)
  have hr : m % 2 ^ k < 2 ^ k := Nat.mod_lt _ hP
  by_cases hq : N ≤ m / 2 ^ k
  · exact le_trans hq (roundShift_ge m k)
  · have hq1 : N ≤ m / 2 ^ k + 1 := by
      by_contra hc
      have h1 : (m / 2 ^ k + 2) * 2 ^ k ≤ N * 2 ^ k := Nat.mul_le_mul_right _ (by omega)
      have h2 : (m / 2 ^ k + 2) * 2 ^ k = 2 ^ k * (m / 2 ^ k) + 2 * 2 ^ k := by ring
      omega
    have hqN : m / 2 ^ k + 1 = N := by omega
    have hr2 : 2 ^ k ≤ 2 * (m % 2 ^ k) := by
      have h1 : N * 2 ^ k = 2 ^ k * (m / 2 ^ k) + 2 ^ k := by rw [← hqN]; ring
      omega
    unfold roundShift
    simp only
    split_ifs with c1 c2 c3 <;> omega

/-- Narrowing a magnitude in `[1 - 2^-25, 1)` gives a magnitude of at least one. -/
theorem round_near_one (m : Nat) (e : Int) (hm : m ≠ 0)
    (h : magLt m e 33554431 (-25) = false) (hlt : magQ m e < 1) :
    1 ≤ magQ (roundShift m (max (e + (ilog2 m : Int)) (-126) - 23 - e).toNat)
      (max (max (e + (ilog2 m : Int)) (-126) - 23) e) := by
  have hE := magQ_lt_one_exp m e hm hlt
  have hge : magQ 33554431 (-25) ≤ magQ m e := by
    have := (magLt_iff m e 33554431 (-25)).not.mp (by simp [h])
    exact not_lt.mp this
  have hE1 : -1 ≤ e + (ilog2 m : Int) := by
    have h1 : (2 : ℚ) ^ (-1 : Int) < (2 : ℚ) ^ (e + (ilog2 m : Int) + 1) := by
      refine lt_of_lt_of_le ?_ (le_trans hge (le_of_lt (magQ_lt_zpow m e hm)))
      unfold magQ
      norm_num
    have := (zpow_lt_zpow_iff_right₀ (by norm_num : (1 : ℚ) < 2)).mp h1
    omega
  have hmax : max (e + (ilog2 m : Int)) (-126) - 23 = -24 := by omega
  rw [hmax]
  have h0 := h
  unfold magLt at h0
  rw [decide_eq_false_iff_not, not_lt] at h0
  have hone := (magLt_iff m e 1 0).mpr (by rw [magQ_one]; exact hlt)
  unfold magLt at hone
  rw [decide_eq_true_eq] at hone
  by_cases hu : (-24 : Int) ≤ e
  · exfalso
    obtain ⟨c, hc⟩ : ∃ c : Nat, (c : Int) = e + 25 := ⟨(e + 25).toNat, by omega⟩
    have hmin : min e (-25) = -25 := min_eq_right (by omega)
    have z1 : (e - min e (-25)).toNat = c := by rw [hmin]; omega
    have z2 : (-25 - min e (-25)).toNat = 0 := by rw [hmin]; omega
    rw [z1, z2] at h0
    have hmin0 : min e 0 = e := min_eq_left (by omega)
    have z3 : (e - min e 0).toNat = 0 := by rw [hmin0]; omega
    have z4 : (0 - min e 0).toNat = 25 - c := by rw [hmin0]; omega
    rw [z3, z4] at hone
    have hc1 : 1 ≤ c := by omega
    have hc2 : c ≤ 25 := by omega
    have hsplit : 2 ^ (25 - c) * 2 ^ c = 33554432 := by
      rw [← pow_add]
      have : 25 - c + c = 25 := by omega
      rw [this]
      norm_num
    have h1 : (m + 1) * 2 ^ c ≤ 2 ^ (25 - c) * 2 ^ c :=
      Nat.mul_le_mul_right _ (by omega)
    have h2 : (m + 1) * 2 ^ c = m * 2 ^ c + 2 ^ c := by ring
    have h3 : 2 ^ 1 ≤ 2 ^ c := Nat.pow_le_pow_right (by norm_num) hc1
    omega
  · obtain ⟨b, hb⟩ : ∃ b : Nat, (b : Int) = -25 - e := ⟨(-25 - e).toNat, by omega⟩
    have hmin : min e (-25) = e := min_eq_left (by omega)
    have z1 : (e - min e (-25)).toNat = 0 := by rw [hmin]; omega
    have z2 : (-25 - min e (-25)).toNat = b := by rw [hmin]; omega
    rw [z1, z2] at h0
    have hk : (-24 - e).toNat = b + 1 := by omega
    rw [hk, max_eq_left (by omega : e ≤ -24)]
    have hr : 16777216 ≤ roundShift m (b + 1) := by
      apply roundShift_ge_of m (b + 1) 16777216 (by norm_num)
      rw [pow_succ]
      omega
    have hrq : ((16777216 : Nat) : ℚ) ≤ (roundShift m (b + 1) : ℚ) := Nat.cast_le.mpr hr
    have hpos := magQ_pos_pow (-24)
    unfold magQ
    calc (1 : ℚ) = ((16777216 : Nat) : ℚ) * (2 : ℚ) ^ (-24 : Int) := by norm_num
      _ ≤ (roundShift m (b + 1) : ℚ) * (2 : ℚ) ^ (-24 : Int) :=
        mul_le_mul_of_nonneg_right hrq (le_of_lt hpos)

/-- The narrowed value is below one exactly when the supplied value is below
`1 - 2^-25`, the midpoint between one and the largest `float` under it. -/
theorem toFloat_lt_one_iff (d : FVal) :
    FVal.lt (toFloat d) (FVal.ofInt 1) = FVal.lt d (FVal.fin false 33554431 (-25)) := by
  cases hthr : FVal.lt d (FVal.fin false 33554431 (-25)) with
  | true => exact toFloat_lt_one d hthr
  | false =>
    rw [ofInt_one]
    cases d with
    | nan => rfl
    | inf s => cases s <;> simp_all [FVal.lt, toFloat]
    | fin s m e =>
      cases s with
      | true => simp [FVal.lt] at hthr
      | false =>
        have h1 : magLt m e 33554431 (-25) = false := by simpa [FVal.lt] using hthr
        have hm : m ≠ 0 := by
          rintro rfl
          simp [magLt] at h1
        have hr : 1 ≤ magQ (roundShift m (max (e + (ilog2 m : Int)) (-126) - 23 - e).toNat)
            (max (max (e + (ilog2 m : Int)) (-126) - 23) e) := by
          by_cases hq : magQ m e < 1
          · exact round_near_one m e hm h1 hq
          · exact round_ge_one m e hm (not_lt.mp hq)
        simp only [toFloat, if_neg hm]
        split_ifs
        · rfl
        · simp only [FVal.lt]
          apply Bool.eq_false_iff.mpr
          intro hc
          have := (magLt_iff _ _ _ _).mp hc
          rw [magQ_one] at this
          exact absurd hr (not_le.mpr this)

theorem ofInt_zero : FVal.ofInt 0 = FVal.fin false 0 0 := by decide

/-- Rounding gives zero exactly when `m` is at most half a unit. -/
theorem roundShift_eq_zero_iff (m k : Nat) (hm : m ≠ 0) :
    roundShift m k = 0 ↔ 2 * m ≤ 2 ^ k := by
  have hP : 0 < 2 ^ k := Nat.two_pow_pos k
  have hdm := Nat.div_add_mod m (2 ^ k)
  have h2 := roundShift_ge m k
  by_cases hq : m / 2 ^ k = 0
  · rw [hq, Nat.mul_zero, Nat.zero_add] at hdm
    have hrs : roundShift m k = if 2 * m < 2 ^ k then 0 else if 2 ^ k < 2 * m then 1 else 0 := by
      unfold roundShift
      simp only [hq, hdm, Nat.zero_add, Nat.zero_mod, if_true]
    rw [hrs]
    generalize 2 ^ k = P at *
    split_ifs with c1 c2
    · simp only [true_iff]; omega
    · simp only [Nat.one_ne_zero, false_iff]; omega
    · simp only [true_iff]; omega
  · have hq1 : 1 ≤ m / 2 ^ k := Nat.pos_of_ne_zero hq
    have h1 : 2 ^ k * 1 ≤ 2 ^ k * (m / 2 ^ k) := Nat.mul_le_mul_left _ hq1
    rw [Nat.mul_one] at h1
    have hR : roundShift m k ≠ 0 := by
      have := le_trans hq1 h2
      exact Nat.pos_iff_ne_zero.mp this
    have hm2 : 2 ^ k ≤ m := by
      have := Nat.le_add_right (2 ^ k * (m / 2 ^ k)) (m % 2 ^ k)
      rw [hdm] at this
      exact le_trans h1 this
    constructor
    · intro h
      exact absurd h hR
    · intro h
      exfalso
      generalize 2 ^ k = P at *
      omega

/-- Narrowing a non-zero magnitude gives zero exactly when the magnitude is
at most `2^-150`. -/
theorem narrow_zero_iff (m : Nat) (e : Int) (hm : m ≠ 0) :
    roundShift m (max (e + (ilog2 m : Int)) (-126) - 23 - e).toNat = 0 ↔
      magLt 1 (-150) m e = false := by
  rw [roundShift_eq_zero_iff m _ hm]
  have hL := ilog2_le m hm
  have hpowL : ∀ k : Nat, 2 * m ≤ 2 ^ k → ilog2 m + 1 ≤ k := by
    intro k hk
    have h1 : 2 ^ (ilog2 m + 1) ≤ 2 ^ k := by
      rw [pow_succ]
      omega
    exact (Nat.pow_le_pow_iff_right (by norm_num)).mp h1
  unfold magLt
  rw [decide_eq_false_iff_not, not_lt]
  by_cases he : e ≤ -150
  · obtain ⟨b, hb⟩ : ∃ b : Nat, (b : Int) = -150 - e := ⟨(-150 - e).toNat, by omega⟩
    have hmin : min (-150) e = e := min_eq_right he
    have z1 : (-150 - min (-150) e).toNat = b := by rw [hmin]; omega
    have z2 : (e - min (-150) e).toNat = 0 := by rw [hmin]; omega
    rw [z1, z2, pow_zero, Nat.mul_one, Nat.one_mul]
    constructor
    · intro h
      have hk := hpowL _ h
      have hkb : (max (e + (ilog2 m : Int)) (-126) - 23 - e).toNat = b + 1 := by omega
      rw [hkb, pow_succ] at h
      omega
    · intro h
      have hLb : ilog2 m ≤ b := by
        have h1 : 2 ^ ilog2 m ≤ 2 ^ b := le_trans hL h
        exact (Nat.pow_le_pow_iff_right (by norm_num)).mp h1
      have hkb : (max (e + (ilog2 m : Int)) (-126) - 23 - e).toNat = b + 1 := by omega
      rw [hkb, pow_succ]
      omega
  · obtain ⟨c, hc⟩ : ∃ c : Nat, (c : Int) = e + 150 := ⟨(e + 150).toNat, by omega⟩
    have hmin : min (-150) e = -150 := min_eq_left (by omega)
    have z1 : (-150 - min (-150) e).toNat = 0 := by rw [hmin]; omega
    have z2 : (e - min (-150) e).toNat = c := by rw [hmin]; omega
    rw [z1, z2, pow_zero, Nat.one_mul]
    have hc1 : 2 ^ 1 ≤ 2 ^ c := Nat.pow_le_pow_right (by norm_num) (by omega)
    have hmc : 1 * 2 ^ c ≤ m * 2 ^ c := Nat.mul_le_mul_right _ (by omega)
    constructor
    · intro h
      have hk := hpowL _ h
      omega
    · intro h
      omega

/-- Comparison of a narrowed finite value with `0.0f`. -/
theorem ne_zero_fin (s : Bool) (m : Nat) (e : Int) :
    FVal.ne (FVal.fin s m e) (FVal.fin false 0 0) = decide (m ≠ 0) := by
  by_cases hm : m = 0
  · cases s <;> simp [FVal.ne, FVal.lt, magLt, hm]
  · have hpos : 0 < m := Nat.pos_of_ne_zero hm
    cases s <;> simp [FVal.ne, FVal.lt, magLt, hm, hpos]

/-- The narrowed value differs from zero exactly when the supplied value is
NaN or exceeds `2^-150` in absolute value. -/
theorem toFloat_ne_zero_iff (d : FVal) :
    FVal.ne (toFloat d) (FVal.ofInt 0) = true ↔
      (d = FVal.nan ∨ FVal.lt halfMinSubnormal (FVal.abs d) = true) := by
  rw [ofInt_zero]
  unfold halfMinSubnormal
  cases d with
  | nan => simp [toFloat, FVal.ne]
  | inf s => cases s <;> simp [toFloat, FVal.ne, FVal.lt, FVal.abs]
  | fin s m e =>
    simp only [reduceCtorEq, false_or, FVal.abs, FVal.lt]
    by_cases hm : m = 0
    · subst hm
      simp only [toFloat, if_true, ne_zero_fin]
      simp [magLt]
    · have hz := narrow_zero_iff m e hm
      simp only [toFloat, if_neg hm]
      split_ifs with hov
      · have hne : magLt 1 (-150) m e ≠ false := fun h => hov.1 (hz.mpr h)
        cases s <;> simp [FVal.ne, FVal.lt, hne]
      · rw [ne_zero_fin, decide_eq_true_eq, Ne, hz]
        generalize magLt 1 (-150) m e = b
        cases b <;> simp

/-! ## Lemmas on `createFFT3DFilter` -/

theorem wrap64_of_isInt64 (x : Int) (h : isInt64 x) : wrap64 x = x := by
  unfold isInt64 at h
  unfold wrap64
  omega

theorem planesFail_iff_error (a : Args) :
    planesFail a ↔ ∃ e, getPlanesArg a.planes = Except.error e := by
  unfold planesFail
  cases h : getPlanesArg a.planes with
  | error e => simp [Except.toOption]
  | ok p => simp [Except.toOption]

/-- Source-order case analysis of `createFFT3DFilter`. -/
theorem createFFT3DFilter_eq (istat : Int) (a : Args) :
    createFFT3DFilter istat a =
      if istat = 0 then caught [] [] "fftwf_init_threads() failed!"
      else
        match getPlanesArg a.planes with
        | Except.error what => caught [] [] what
        | Except.ok _ =>
          if btFails a then
            caught [] [] "bt must be -1(Sharpen), 0(Kalman), 1,2,3,4,5(Wiener)"
          else if owFails a then caught [] [] "Must not be 2*ow > bw"
          else if ohFails a then caught [] [] "Must not be 2*oh > bh"
          else if betaFails a then caught [] [] "beta must be not less 1.0"
          else if pshowmode a then buildPShow (readOptions a) (NodeRef.clip a.clip) 0
          else buildPipeline (readOptions a) (NodeRef.clip a.clip) (NodeRef.clip a.clip) 0 := by
  unfold createFFT3DFilter
  by_cases hi : istat = 0
  · simp only [if_pos hi]
  · simp only [if_neg hi]
    cases getPlanesArg a.planes with
    | error e => rfl
    | ok p =>
      simp only [Bool.and_eq_true, decide_eq_true_eq]

theorem create_valid (istat : Int) (a : Args) (hv : Valid istat a) :
    createFFT3DFilter istat a =
      if pshowmode a then buildPShow (readOptions a) (NodeRef.clip a.clip) 0
      else buildPipeline (readOptions a) (NodeRef.clip a.clip) (NodeRef.clip a.clip) 0 := by
  obtain ⟨hi, hp, hbt, how, hoh, hbeta⟩ := hv
  rw [createFFT3DFilter_eq, if_neg hi]
  cases h : getPlanesArg a.planes with
  | error e => exact absurd ((planesFail_iff_error a).mpr ⟨e, h⟩) hp
  | ok p => simp only [if_neg hbt, if_neg how, if_neg hoh, if_neg hbeta]

theorem buildPShow_error (o : Options) (node : NodeRef) (plane : Int) :
    (buildPShow o node plane).error = none := rfl

theorem buildPipeline_error (o : Options) (node vi : NodeRef) (plane : Int) :
    (buildPipeline o node vi plane).error = none := rfl

theorem create_valid_error (istat : Int) (a : Args) (hv : Valid istat a) :
    (createFFT3DFilter istat a).error = none := by
  rw [create_valid istat a hv]
  split_ifs
  · exact buildPShow_error _ _ _
  · exact buildPipeline_error _ _ _ _

/-- What a run with a failing check leaves behind: nothing created, and the
message of the first check, in source order, that fails. -/
theorem create_invalid (istat : Int) (a : Args) (hv : ¬ Valid istat a) :
    ∃ what, createFFT3DFilter istat a = caught [] [] what ∧
      ((istat = 0 ∧ what = "fftwf_init_threads() failed!") ∨
       (istat ≠ 0 ∧ getPlanesArg a.planes = Except.error what) ∨
       (istat ≠ 0 ∧ ¬ planesFail a ∧ btFails a ∧
          what = "bt must be -1(Sharpen), 0(Kalman), 1,2,3,4,5(Wiener)") ∨
       (istat ≠ 0 ∧ ¬ planesFail a ∧ ¬ btFails a ∧ owFails a ∧
          what = "Must not be 2*ow > bw") ∨
       (istat ≠ 0 ∧ ¬ planesFail a ∧ ¬ btFails a ∧ ¬ owFails a ∧ ohFails a ∧
          what = "Must not be 2*oh > bh") ∨
       (istat ≠ 0 ∧ ¬ planesFail a ∧ ¬ btFails a ∧ ¬ owFails a ∧ ¬ ohFails a ∧
          betaFails a ∧ what = "beta must be not less 1.0")) := by
  rw [createFFT3DFilter_eq]
  by_cases hi : istat = 0
  · exact ⟨_, by rw [if_pos hi], Or.inl ⟨hi, rfl⟩⟩
  · rw [if_neg hi]
    cases h : getPlanesArg a.planes with
    | error e => exact ⟨e, rfl, Or.inr (Or.inl ⟨hi, rfl⟩)⟩
    | ok p =>
      have hp : ¬ planesFail a := by
        rw [planesFail_iff_error]
        rintro ⟨e, he⟩
        rw [h] at he
        exact absurd he (by simp)
      by_cases hbt : btFails a
      · exact ⟨_, by simp only [if_pos hbt], Or.inr (Or.inr (Or.inl ⟨hi, hp, hbt, rfl⟩))⟩
      · by_cases how : owFails a
        · exact ⟨_, by simp only [if_neg hbt, if_pos how],
            Or.inr (Or.inr (Or.inr (Or.inl ⟨hi, hp, hbt, how, rfl⟩)))⟩
        · by_cases hoh : ohFails a
          · exact ⟨_, by simp only [if_neg hbt, if_neg how, if_pos hoh],
              Or.inr (Or.inr (Or.inr (Or.inr (Or.inl ⟨hi, hp, hbt, how, hoh, rfl⟩))))⟩
          · by_cases hbeta : betaFails a
            · exact ⟨_, by simp only [if_neg hbt, if_neg how, if_neg hoh, if_pos hbeta],
                Or.inr (Or.inr (Or.inr (Or.inr (Or.inr ⟨hi, hp, hbt, how, hoh, hbeta, rfl⟩))))⟩
            · exact absurd ⟨hi, hp, hbt, how, hoh, hbeta⟩ hv

theorem caught_error (c : List FilterCall) (n : List NodeRef) (what : String) :
    (caught c n what).error = some ("FFT3DFilter: " ++ what) := rfl

theorem create_error_none_iff (istat : Int) (a : Args) :
    (createFFT3DFilter istat a).error = none ↔ Valid istat a := by
  constructor
  · intro h
    by_contra hv
    obtain ⟨what, hw, -⟩ := create_invalid istat a hv
    rw [hw, caught_error] at h
    exact absurd h (by simp)
  · exact create_valid_error istat a

/-- The branch condition of line 180, expressed on the supplied arguments. -/
theorem pshowmode_iff_supplied (a : Args) : pshowmode a ↔ suppliedPShow a := by
  have hI : (readOptions a).pshow = set_option_int64 0 a.pshow := rfl
  have hF : (readOptions a).pfactor = set_option_float (FVal.ofInt 0) a.pfactor := rfl
  unfold pshowmode suppliedPShow
  rw [hI, hF]
  have h1 : set_option_int64 0 a.pshow ≠ 0 ↔ ∃ p, a.pshow = some p ∧ p ≠ 0 := by
    cases a.pshow with
    | none => simp [set_option_int64]
    | some p => simp [set_option_int64]
  have h2 : FVal.ne (set_option_float (FVal.ofInt 0) a.pfactor) (FVal.ofInt 0) = true ↔
      ∃ d, a.pfactor = some d ∧
        (d = FVal.nan ∨ FVal.lt halfMinSubnormal (FVal.abs d) = true) := by
    cases a.pfactor with
    | none =>
      simp only [set_option_float, reduceCtorEq, false_and, exists_false, iff_false]
      decide
    | some d =>
      simp only [set_option_float, Option.some.injEq, exists_eq_left']
      exact toFloat_ne_zero_iff d
  rw [h1, h2]

theorem except_error_iff_not_ok (v : Except String (List Bool)) :
    (∃ e, v = Except.error e) ↔ ¬ ∃ r, v = Except.ok r := by
  cases v with
  | error e => simp
  | ok r => simp

/-! ## Properties of the argument validation -/

/-- C1: with the transform library initialised and every other check
passing, `createFFT3DFilter` fails exactly when the supplied `bt` is outside
`-1, 0, 1, 2, 3, 4, 5`, and then with the `bt` message; so `bt = 6` is
rejected and each of the seven listed values passes the `bt` check. -/
theorem bt_validation (istat : Int) (a : Args) (bt : Int) (hbt : a.bt = some bt)
    (hinit : istat ≠ 0) (hplanes : ¬ planesFail a) (how : ¬ owFails a) (hoh : ¬ ohFails a)
    (hbeta : ¬ betaFails a) :
    ((createFFT3DFilter istat a).error ≠ none ↔ bt ∉ [-1, 0, 1, 2, 3, 4, 5]) ∧
    (bt ∉ [-1, 0, 1, 2, 3, 4, 5] → createFFT3DFilter istat a =
      caught [] [] "bt must be -1(Sharpen), 0(Kalman), 1,2,3,4,5(Wiener)") ∧
    (btFails a ↔ bt ∉ [-1, 0, 1, 2, 3, 4, 5]) := by
  have hval : (readOptions a).bt = bt := by
    simp only [readOptions, hbt, set_option_int64]
  have hmem : btFails a ↔ bt ∉ [-1, 0, 1, 2, 3, 4, 5] := by
    unfold btFails
    rw [hval]
    simp only [List.mem_cons, List.mem_singleton, List.not_mem_nil, or_false]
    omega
  refine ⟨?_, ?_, hmem⟩
  · rw [← hmem, Ne, create_error_none_iff]
    constructor
    · intro h
      by_contra hc
      exact h ⟨hinit, hplanes, hc, how, hoh, hbeta⟩
    · intro h hv
      exact hv.2.2.1 h
  · intro h
    have hb := hmem.mpr h
    obtain ⟨what, hw, hcase⟩ := create_invalid istat a (fun hv => hv.2.2.1 hb)
    rcases hcase with ⟨h0, -⟩ | ⟨-, hp⟩ | ⟨-, -, -, rfl⟩ | ⟨-, -, hn, -⟩ | ⟨-, -, hn, -⟩ |
      ⟨-, -, hn, -⟩
    · exact absurd h0 hinit
    · exact absurd ((planesFail_iff_error a).mpr ⟨what, hp⟩) hplanes
    · exact hw
    · exact absurd hb hn
    · exact absurd hb hn
    · exact absurd hb hn

theorem bt_validation_witness :
    (createFFT3DFilter 1 { clipOnly 0 with bt := some 6 }).error ≠ none ↔
      (6 : Int) ∉ [-1, 0, 1, 2, 3, 4, 5] :=
  (bt_validation 1 { clipOnly 0 with bt := some 6 } 6 rfl (by decide) (by decide) (by decide)
    (by decide) (by decide)).1

/-- C2, as stated, fails: `bw = 32`, `ow = 16` (`ow = bw/2`) is accepted
although `2*ow < bw` does not hold. -/
theorem overlap_half_accepted :
    (createFFT3DFilter 1 { clipOnly 0 with bw := some 32, ow := some 16 }).error = none ∧
    ¬ (2 * (readOptions { clipOnly 0 with bw := some 32, ow := some 16 }).ow
        < (readOptions { clipOnly 0 with bw := some 32, ow := some 16 }).bw) := by
  decide

/-- C2, amended: when doubling the overlaps stays inside the `int64_t`
range, every accepted configuration satisfies `2*ow ≤ bw` and `2*oh ≤ bh`,
and every configuration with `2*ow > bw` or `2*oh > bh` is rejected. -/
theorem overlap_validation (istat : Int) (a : Args)
    (how : isInt64 ((readOptions a).ow * 2)) (hoh : isInt64 ((readOptions a).oh * 2)) :
    ((createFFT3DFilter istat a).error = none →
      2 * (readOptions a).ow ≤ (readOptions a).bw ∧
      2 * (readOptions a).oh ≤ (readOptions a).bh) ∧
    (((readOptions a).bw < 2 * (readOptions a).ow ∨
      (readOptions a).bh < 2 * (readOptions a).oh) →
      (createFFT3DFilter istat a).error ≠ none) := by
  have key : (createFFT3DFilter istat a).error = none →
      2 * (readOptions a).ow ≤ (readOptions a).bw ∧
      2 * (readOptions a).oh ≤ (readOptions a).bh := by
    intro h
    obtain ⟨-, -, -, h1, h2, -⟩ := (create_error_none_iff istat a).mp h
    unfold owFails at h1
    unfold ohFails at h2
    rw [wrap64_of_isInt64 _ how] at h1
    rw [wrap64_of_isInt64 _ hoh] at h2
    omega
  refine ⟨key, ?_⟩
  intro h hacc
  have := key hacc
  omega

theorem overlap_validation_witness :
    (createFFT3DFilter 1 { clipOnly 0 with bw := some 32, ow := some 17 }).error ≠ none :=
  (overlap_validation 1 { clipOnly 0 with bw := some 32, ow := some 17 } (by decide)
    (by decide)).2 (by decide)

/-- C3, as stated, fails: the supplied `double` `1 - 2^-53` is less than
one, narrows to `1.0f`, and is accepted. -/
theorem beta_just_below_one_accepted :
    FVal.lt (FVal.fin false 9007199254740991 (-53)) (FVal.fin false 1 0) = true ∧
    (createFFT3DFilter 1
      { clipOnly 0 with beta := some (FVal.fin false 9007199254740991 (-53)) }).error
      = none := by
  decide

/-- C3, amended: the `beta` check is made on the value narrowed to `float`.
Every supplied `beta` below `1 - 2^-25` (such as `0.5`) makes
`createFFT3DFilter` fail, the check fails for no other supplied value, and it
passes when `beta` is omitted or at least one. -/
theorem beta_validation (istat : Int) (a : Args) :
    (∀ d, a.beta = some d → FVal.lt d belowOneMidpoint = true →
      (createFFT3DFilter istat a).error ≠ none) ∧
    (∀ d, a.beta = some d → (betaFails a ↔ FVal.lt d belowOneMidpoint = true)) ∧
    (a.beta = none → ¬ betaFails a) ∧
    (∀ d, a.beta = some d → FVal.ge d (FVal.fin false 1 0) = true → ¬ betaFails a) := by
  have hval : ∀ d, a.beta = some d → (readOptions a).beta = toFloat d := by
    intro d hd
    simp only [readOptions, hd, set_option_float]
  have hiff : ∀ d, a.beta = some d → (betaFails a ↔ FVal.lt d belowOneMidpoint = true) := by
    intro d hd
    unfold betaFails belowOneMidpoint
    rw [hval d hd, toFloat_lt_one_iff]
  refine ⟨?_, hiff, ?_, ?_⟩
  · intro d hd hlt hacc
    exact ((create_error_none_iff istat a).mp hacc).2.2.2.2.2 ((hiff d hd).mpr hlt)
  · intro hnone
    have : (readOptions a).beta = toFloat (FVal.fin false 1 0) := by
      simp only [readOptions, hnone, set_option_float]
    unfold betaFails
    rw [this]
    decide
  · intro d hd hge
    unfold betaFails
    rw [hval d hd, toFloat_ge_one d (by rw [ofInt_one]; exact hge)]
    simp

theorem beta_validation_witness :
    (createFFT3DFilter 1 { clipOnly 0 with beta := some (FVal.fin false 1 (-1)) }).error
      ≠ none :=
  (beta_validation 1 { clipOnly 0 with beta := some (FVal.fin false 1 (-1)) }).1
    (FVal.fin false 1 (-1)) rfl (by decide)

/-- C4: for a supplied list `l`, `getPlanesArg` throws exactly when some
index is outside `0..2` or some index is repeated; the message is decided by
the first offending element `x`, the one after the longest accepted prefix
`p` (in range, pairwise distinct): "plane index out of range" when `x` is
outside `0..2`, "plane specified twice" when `x` already occurs in `p`. -/
theorem planes_error (l : List Int) :
    ((∃ e, getPlanesArg (some l) = Except.error e) ↔
      ((∃ x ∈ l, x < 0 ∨ 2 < x) ∨ ¬ l.Nodup)) ∧
    (∀ e, getPlanesArg (some l) = Except.error e ↔
      ∃ p x s, l = p ++ x :: s ∧ (∀ y ∈ p, 0 ≤ y ∧ y ≤ 2) ∧ p.Nodup ∧
        (((x < 0 ∨ 2 < x) ∧ e = "plane index out of range") ∨
          (x ∈ p ∧ e = "plane specified twice"))) := by
  cases l with
  | nil =>
    rw [getPlanesArg_nil]
    refine ⟨by simp, ?_⟩
    intro e
    simp only [reduceCtorEq, false_iff]
    rintro ⟨p, x, s, h, -⟩
    exact absurd h (by simp)
  | cons a rest =>
    rw [getPlanesArg_cons]
    constructor
    · rw [except_error_iff_not_ok]
      constructor
      · intro h
        by_contra hc
        rw [not_or, not_not] at hc
        apply h
        refine ⟨maskOf ((a :: rest) ++ []), (getPlanesLoop_ok_iff _ _ _).mpr ⟨?_, hc.2, rfl⟩⟩
        intro y hy
        refine ⟨fun hr => hc.1 ⟨y, hy, hr⟩, List.not_mem_nil y⟩
      · rintro h ⟨r, hr⟩
        obtain ⟨h1, h2, -⟩ := (getPlanesLoop_ok_iff _ _ _).mp hr
        rcases h with ⟨x, hx, hxr⟩ | hnd
        · exact (h1 x hx).1 hxr
        · exact hnd h2
    · intro e
      rw [getPlanesLoop_error_iff]
      constructor
      · rintro ⟨p, x, s, hl, hp, hnd, hx⟩
        refine ⟨p, x, s, hl, ?_, hnd, ?_⟩
        · intro y hy
          have := (hp y hy).1
          omega
        · rcases hx with hx | ⟨-, hx2, hx3⟩
          · exact Or.inl hx
          · rcases hx2 with hx2 | hx2
            · exact absurd hx2 (List.not_mem_nil x)
            · exact Or.inr ⟨hx2, hx3⟩
      · rintro ⟨p, x, s, hl, hp, hnd, hx⟩
        refine ⟨p, x, s, hl, ?_, hnd, ?_⟩
        · intro y hy
          have := hp y hy
          exact ⟨by omega, List.not_mem_nil y⟩
        · rcases hx with hx | ⟨hx2, hx3⟩
          · exact Or.inl hx
          · have := hp x hx2
            exact Or.inr ⟨by omega, Or.inr hx2, hx3⟩

/-- C5: on a non-empty list of pairwise distinct indices in `0..2`,
`getPlanesArg` succeeds with a three-entry mask whose entry `i` is true
exactly when `i` occurs in the list (`planes=[0]` gives
`[true,false,false]`); an absent or empty `planes` selects all three planes. -/
theorem planes_mask (l : List Int) (hne : l ≠ []) (hr : ∀ x ∈ l, 0 ≤ x ∧ x ≤ 2)
    (hnd : l.Nodup) :
    (∃ process, getPlanesArg (some l) = Except.ok process ∧ process.length = 3 ∧
      ∀ i : Nat, i < 3 → (process.getD i false = true ↔ (i : Int) ∈ l)) ∧
    getPlanesArg (some [0]) = Except.ok [true, false, false] ∧
    getPlanesArg none = Except.ok [true, true, true] ∧
    getPlanesArg (some []) = Except.ok [true, true, true] := by
  refine ⟨?_, rfl, rfl, rfl⟩
  cases l with
  | nil => exact absurd rfl hne
  | cons a rest =>
    refine ⟨maskOf ((a :: rest) ++ []), ?_, rfl, ?_⟩
    · rw [getPlanesArg_cons]
      refine (getPlanesLoop_ok_iff _ _ _).mpr ⟨?_, hnd, rfl⟩
      intro y hy
      have := hr y hy
      exact ⟨by omega, List.not_mem_nil y⟩
    · intro i hi
      have h := maskOf_getD ((a :: rest) ++ []) (i : Int) (by omega)
      rw [Int.toNat_ofNat] at h
      rw [h, List.append_nil, decide_eq_true_eq]

theorem planes_mask_witness :
    ∃ process, getPlanesArg (some [2, 0]) = Except.ok process ∧ process.length = 3 ∧
      ∀ i : Nat, i < 3 → (process.getD i false = true ↔ (i : Int) ∈ [(2 : Int), 0]) :=
  (planes_mask [2, 0] (by decide) (by decide) (by decide)).1

/-- C6, as stated, fails: with `pshow = 1` and the supplied `pfactor = 2^-150`
every setup check passes and both values are non-zero, yet `pfactor` narrows
to `0.0f` and the normal pipeline is registered, not the visualizer chain. -/
theorem pfactor_underflow_builds_pipeline :
    Valid 1 { clipOnly 0 with pshow := some 1, pfactor := some (FVal.fin false 1 (-150)) } ∧
    (1 : Int) ≠ 0 ∧
    FVal.ne (FVal.fin false 1 (-150)) (FVal.fin false 0 0) = true ∧
    (createFFT3DFilter 1
        { clipOnly 0 with pshow := some 1, pfactor := some (FVal.fin false 1 (-150)) }).chain =
      [("FFT3DFilterTransform", NodeRef.clip 0),
       ("FFT3DFilterMain", NodeRef.filter "FFT3DFilterTransform"),
       ("FFT3DFilterInverseTransform", NodeRef.filter "FFT3DFilterMain")] ∧
    (createFFT3DFilter 1
        { clipOnly 0 with pshow := some 1, pfactor := some (FVal.fin false 1 (-150)) }).chain ≠
      [("FFT3DFilterPShowHelper", NodeRef.clip 0),
       ("FFT3DFilterPShow", NodeRef.filter "FFT3DFilterPShowHelper")] := by
  decide

/-- C6, amended: on a configuration that passes every setup check,
`createFFT3DFilter` registers the chain `FFT3DFilterPShowHelper ->
FFT3DFilterPShow` (with `FFT3DFilterPShow` written to `out`) exactly when
`pshow` is supplied non-zero and the supplied `pfactor` is non-zero after
narrowing to `float`, that is, NaN or above `2^-150` in absolute value; in
every other case it registers `FFT3DFilterTransform -> FFT3DFilterMain ->
FFT3DFilterInverseTransform` (with `FFT3DFilterInverseTransform` written to
`out`).  No error is set either way. -/
theorem chain_selection (istat : Int) (a : Args) (hv : Valid istat a) :
    ((createFFT3DFilter istat a).chain =
        [("FFT3DFilterPShowHelper", NodeRef.clip a.clip),
         ("FFT3DFilterPShow", NodeRef.filter "FFT3DFilterPShowHelper")] ↔
      suppliedPShow a) ∧
    (suppliedPShow a →
      (createFFT3DFilter istat a).outClip = [NodeRef.filter "FFT3DFilterPShow"]) ∧
    (¬ suppliedPShow a →
      (createFFT3DFilter istat a).chain =
        [("FFT3DFilterTransform", NodeRef.clip a.clip),
         ("FFT3DFilterMain", NodeRef.filter "FFT3DFilterTransform"),
         ("FFT3DFilterInverseTransform", NodeRef.filter "FFT3DFilterMain")] ∧
      (createFFT3DFilter istat a).outClip =
        [NodeRef.filter "FFT3DFilterInverseTransform"]) ∧
    (createFFT3DFilter istat a).error = none := by
  rw [create_valid istat a hv]
  by_cases hp : pshowmode a
  · have hs : suppliedPShow a := (pshowmode_iff_supplied a).mp hp
    rw [if_pos hp]
    exact ⟨⟨fun _ => hs, fun _ => rfl⟩, fun _ => rfl, fun h => absurd hs h, rfl⟩
  · have hs : ¬ suppliedPShow a := fun h => hp ((pshowmode_iff_supplied a).mpr h)
    rw [if_neg hp]
    refine ⟨⟨?_, fun h => absurd h hs⟩, fun h => absurd h hs, fun _ => ⟨rfl, rfl⟩, rfl⟩
    intro h
    have hlen : (buildPipeline (readOptions a) (NodeRef.clip a.clip) (NodeRef.clip a.clip)
        0).chain.length = 3 := rfl
    rw [h] at hlen
    simp at hlen

theorem chain_selection_witness :
    (createFFT3DFilter 1
        { clipOnly 7 with pshow := some 1, pfactor := some (FVal.fin false 1 (-1)) }).chain =
      [("FFT3DFilterPShowHelper", NodeRef.clip 7),
       ("FFT3DFilterPShow", NodeRef.filter "FFT3DFilterPShowHelper")] :=
  (chain_selection 1
    { clipOnly 7 with pshow := some 1, pfactor := some (FVal.fin false 1 (-1)) }
    (by decide)).1.mpr
    ⟨⟨1, rfl, by decide⟩, ⟨FVal.fin false 1 (-1), rfl, Or.inr (by decide)⟩⟩

/-- C7: when a setup check fails (`fftwf_init_threads()` returning 0,
`getPlanesArg` throwing, `bt` out of range, `2*ow > bw`, `2*oh > bh`,
`beta < 1`), `createFFT3DFilter` registers no filter, writes no node to
`out`, and sets as error exactly "FFT3DFilter: " followed by the message of
the first failing check; when no check fails no error is set. -/
theorem setup_failure (istat : Int) (a : Args) :
    (¬ Valid istat a →
      (createFFT3DFilter istat a).created = [] ∧ (createFFT3DFilter istat a).outClip = [] ∧
      ∃ what, (createFFT3DFilter istat a).error = some ("FFT3DFilter: " ++ what)) ∧
    (istat = 0 → (createFFT3DFilter istat a).error =
      some "FFT3DFilter: fftwf_init_threads() failed!") ∧
    (∀ what, istat ≠ 0 → getPlanesArg a.planes = Except.error what →
      (createFFT3DFilter istat a).error = some ("FFT3DFilter: " ++ what)) ∧
    (istat ≠ 0 → ¬ planesFail a → btFails a → (createFFT3DFilter istat a).error =
      some "FFT3DFilter: bt must be -1(Sharpen), 0(Kalman), 1,2,3,4,5(Wiener)") ∧
    (istat ≠ 0 → ¬ planesFail a → ¬ btFails a → owFails a →
      (createFFT3DFilter istat a).error = some "FFT3DFilter: Must not be 2*ow > bw") ∧
    (istat ≠ 0 → ¬ planesFail a → ¬ btFails a → ¬ owFails a → ohFails a →
      (createFFT3DFilter istat a).error = some "FFT3DFilter: Must not be 2*oh > bh") ∧
    (istat ≠ 0 → ¬ planesFail a → ¬ btFails a → ¬ owFails a → ¬ ohFails a → betaFails a →
      (createFFT3DFilter istat a).error = some "FFT3DFilter: beta must be not less 1.0") ∧
    (Valid istat a → (createFFT3DFilter istat a).error = none) := by
  refine ⟨?_, ?_, ?_, ?_, ?_, ?_, ?_, create_valid_error istat a⟩
  · intro hv
    obtain ⟨what, hw, -⟩ := create_invalid istat a hv
    rw [hw]
    exact ⟨rfl, rfl, what, rfl⟩
  · intro hi
    rw [createFFT3DFilter_eq, if_pos hi]
    decide
  · intro what hi hp
    rw [createFFT3DFilter_eq, if_neg hi, hp]
    rfl
  · intro hi hp hbt
    rw [createFFT3DFilter_eq, if_neg hi]
    cases h : getPlanesArg a.planes with
    | error e => exact absurd ((planesFail_iff_error a).mpr ⟨e, h⟩) hp
    | ok p =>
      simp only [if_pos hbt]
      decide
  · intro hi hp hbt how
    rw [createFFT3DFilter_eq, if_neg hi]
    cases h : getPlanesArg a.planes with
    | error e => exact absurd ((planesFail_iff_error a).mpr ⟨e, h⟩) hp
    | ok p =>
      simp only [if_neg hbt, if_pos how]
      decide
  · intro hi hp hbt how hoh
    rw [createFFT3DFilter_eq, if_neg hi]
    cases h : getPlanesArg a.planes with
    | error e => exact absurd ((planesFail_iff_error a).mpr ⟨e, h⟩) hp
    | ok p =>
      simp only [if_neg hbt, if_neg how, if_pos hoh]
      decide
  · intro hi hp hbt how hoh hbeta
    rw [createFFT3DFilter_eq, if_neg hi]
    cases h : getPlanesArg a.planes with
    | error e => exact absurd ((planesFail_iff_error a).mpr ⟨e, h⟩) hp
    | ok p =>
      simp only [if_neg hbt, if_neg how, if_neg hoh, if_pos hbeta]
      decide

theorem setup_failure_witness :
    (createFFT3DFilter 1 { clipOnly 0 with planes := some [1, 1] }).created = [] ∧
    (createFFT3DFilter 1 { clipOnly 0 with planes := some [1, 1] }).error =
      some ("FFT3DFilter: " ++ "plane specified twice") :=
  ⟨((setup_failure 1 { clipOnly 0 with planes := some [1, 1] }).1 (by decide)).1,
   (setup_failure 1 { clipOnly 0 with planes := some [1, 1] }).2.2.1
      "plane specified twice" (by decide) rfl⟩

/-- C8, as stated, fails: `bw = 0`, `bh = 33` is accepted although `bw < 1`
and `bh` is odd. -/
theorem zero_and_odd_block_accepted :
    (createFFT3DFilter 1 { clipOnly 0 with bw := some 0, bh := some 33 }).error = none ∧
    ¬ (1 ≤ (readOptions { clipOnly 0 with bw := some 0, bh := some 33 }).bw ∧
       1 ≤ (readOptions { clipOnly 0 with bw := some 0, bh := some 33 }).bh ∧
       (readOptions { clipOnly 0 with bw := some 0, bh := some 33 }).bw % 2 = 0 ∧
       (readOptions { clipOnly 0 with bw := some 0, bh := some 33 }).bh % 2 = 0) := by
  decide

/-- C8, amended: the validation tests neither `bw ≥ 1`, `bh ≥ 1` nor
parity; what it gives for the block sizes is that every accepted
configuration with non-negative overlaps (doubling inside the `int64_t`
range) has `bw ≥ 0` and `bh ≥ 0`, so that with such overlaps a negative `bw`
or `bh` is rejected. -/
theorem block_size_validation (istat : Int) (a : Args)
    (how : 0 ≤ (readOptions a).ow) (hoh : 0 ≤ (readOptions a).oh)
    (how2 : isInt64 ((readOptions a).ow * 2)) (hoh2 : isInt64 ((readOptions a).oh * 2)) :
    ((createFFT3DFilter istat a).error = none →
      0 ≤ (readOptions a).bw ∧ 0 ≤ (readOptions a).bh) ∧
    (((readOptions a).bw < 0 ∨ (readOptions a).bh < 0) →
      (createFFT3DFilter istat a).error ≠ none) := by
  have key : (createFFT3DFilter istat a).error = none →
      0 ≤ (readOptions a).bw ∧ 0 ≤ (readOptions a).bh := by
    intro h
    obtain ⟨-, -, -, h1, h2, -⟩ := (create_error_none_iff istat a).mp h
    unfold owFails at h1
    unfold ohFails at h2
    rw [wrap64_of_isInt64 _ how2] at h1
    rw [wrap64_of_isInt64 _ hoh2] at h2
    omega
  refine ⟨key, ?_⟩
  intro h hacc
  have := key hacc
  omega

theorem block_size_validation_witness :
    (createFFT3DFilter 1 { clipOnly 0 with bw := some (-4), ow := some 0 }).error ≠ none :=
  (block_size_validation 1 { clipOnly 0 with bw := some (-4), ow := some 0 } (by decide)
    (by decide) (by decide) (by decide)).2 (by decide)

/-- C10: two invocations that differ only in a valid `planes` argument
register the same filters with the same constructor arguments and leave the
same outcome, and every filter is constructed with plane `0`. -/
theorem planes_independence (istat : Int) (a : Args) (p1 p2 : Option (List Int))
    (h1 : ∃ m, getPlanesArg p1 = Except.ok m) (h2 : ∃ m, getPlanesArg p2 = Except.ok m) :
    createFFT3DFilter istat { a with planes := p1 } =
      createFFT3DFilter istat { a with planes := p2 } ∧
    (∀ c ∈ (createFFT3DFilter istat { a with planes := p1 }).created,
      c.instanceData.plane = 0) ∧
    (∀ c ∈ (createFFT3DFilter istat { a with planes := p2 }).created,
      c.instanceData.plane = 0) := by
  obtain ⟨m1, hm1⟩ := h1
  obtain ⟨m2, hm2⟩ := h2
  have hplane : ∀ p : Option (List Int),
      ∀ c ∈ (createFFT3DFilter istat { a with planes := p }).created,
        c.instanceData.plane = 0 := by
    intro p c hc
    by_cases hv : Valid istat { a with planes := p }
    · rw [create_valid istat _ hv] at hc
      split_ifs at hc
      · simp only [buildPShow, List.mem_cons, List.mem_singleton, List.not_mem_nil,
          or_false] at hc
        rcases hc with rfl | rfl <;> rfl
      · simp only [buildPipeline, List.mem_cons, List.mem_singleton, List.not_mem_nil,
          or_false] at hc
        rcases hc with rfl | rfl | rfl <;> rfl
    · obtain ⟨what, hw, -⟩ := create_invalid istat _ hv
      rw [hw] at hc
      exact absurd hc (List.not_mem_nil c)
  refine ⟨?_, hplane p1, hplane p2⟩
  simp only [createFFT3DFilter, hm1, hm2]
  rfl

theorem planes_independence_witness :
    createFFT3DFilter 1 { clipOnly 0 with planes := some [0] } =
      createFFT3DFilter 1 { clipOnly 0 with planes := some [2, 1] } :=
  (planes_independence 1 (clipOnly 0) (some [0]) (some [2, 1])
    ⟨[true, false, false], rfl⟩ ⟨[false, true, true], rfl⟩).1

end FFT3DFilter
